import Mathlib

/-!
Verification of the online speaker-attribution core of the meetings
transcriber (`src/app.py`).

The attributor state is the pair of module-level globals
`speaker_embeddings` (a `dict` from speaker label to the list of reference
embeddings, insertion ordered) and `current_speaker` (a string label).
We model the dict as an insertion-ordered association list and thread the
state explicitly through the operations.

The source scores identities by the arithmetic mean of cosine similarities
computed with numpy floating point (`np.dot` / `np.linalg.norm`).  The
attribution logic in `detect_speaker` depends only on the scores the
similarity measure returns, so we model the pairwise similarity measure as
an explicit parameter `sim : E → E → ℚ` over an abstract embedding type
`E`; `avg_similarity` below is the arithmetic mean the source takes of
those pairwise values.  Exact rationals stand in for the source's floats.
-/

namespace Transcriber

/-- `SIMILARITY_THRESHOLD = 0.85` (src/app.py line 25). -/
def SIMILARITY_THRESHOLD : ℚ := 0.85

/-- Cap on simultaneously tracked identities; the source writes the literal
`10` at line 162 (`if len(speaker_embeddings) < 10`). -/
def MAX_SPEAKERS : ℕ := 10

/-- Cap on reference samples per identity; the source writes the literal
`10` at line 155 (`if len(speaker_embeddings[best_speaker]) < 10`). -/
def MAX_REFERENCE_SAMPLES : ℕ := 10

/-- The attributor state: the globals `speaker_embeddings` (insertion-ordered
dict, modelled as an association list) and `current_speaker`. -/
structure SpeakerState (E : Type) where
  speaker_embeddings : List (String × List E)
  current_speaker : String
  deriving DecidableEq, Repr

/-- The initial global state (src/app.py lines 31-32):
`speaker_embeddings = {}`, `current_speaker = "A"`. -/
def initState (E : Type) : SpeakerState E := ⟨[], "A"⟩

/-- `chr(ord('A') + n)` as a one-character label (src/app.py line 161). -/
def newSpeakerLabel (n : ℕ) : String :=
  String.mk [Char.ofNat ('A'.toNat + n)]

/-- The per-identity score (src/app.py lines 143-145): the arithmetic mean
`np.mean` of the pairwise similarities between the incoming embedding and
each stored reference embedding. -/
def avg_similarity {E : Type} (sim : E → E → ℚ) (emb : E) (refs : List E) : ℚ :=
  ((refs.map (sim emb)).sum) / refs.length

/-- The best-match loop (src/app.py lines 139-150): starting from
`best_speaker = None`, `best_similarity = -1`, scan the registry in
insertion order and update the accumulator whenever an identity scores
strictly higher than the best so far. -/
def best_match_loop {E : Type} (sim : E → E → ℚ) (emb : E) :
    List (String × List E) → Option String × ℚ → Option String × ℚ
  | [], acc => acc
  | p :: rest, (bs, bv) =>
      if avg_similarity sim emb p.2 > bv then
        best_match_loop sim emb rest (some p.1, avg_similarity sim emb p.2)
      else
        best_match_loop sim emb rest (bs, bv)

/-- Python dict lookup `speaker_embeddings[k]`: the value of the first (and
in dict states only) entry with the given key.  The `[]` result for an
absent key is dead code: the source only looks up keys returned by the
best-match loop, which are present in the registry. -/
def lookupRefs {E : Type} (k : String) : List (String × List E) → List E
  | [] => []
  | p :: t => if p.1 = k then p.2 else lookupRefs k t

/-- `speaker_embeddings[best_speaker].append(embedding)` (src/app.py line
156): extend in place the reference list of the entry with the given key. -/
def appendRef {E : Type} (k : String) (emb : E) :
    List (String × List E) → List (String × List E)
  | [] => []
  | p :: t => if p.1 = k then (p.1, p.2 ++ [emb]) :: t else p :: appendRef k emb t

/-- Python dict assignment `speaker_embeddings[k] = v` (src/app.py line
163): replace the value of an existing entry in place, otherwise append a
new entry at the end (insertion order). -/
def dictInsert {E : Type} (k : String) (v : List E) :
    List (String × List E) → List (String × List E)
  | [] => [(k, v)]
  | p :: t => if p.1 = k then (k, v) :: t else p :: dictInsert k v t

/-- `detect_speaker` (src/app.py lines 125-168), returning the value the
Python function returns (`None` is possible at line 168) together with the
updated global state.

The inner `none` case of the match on the loop result is dead code: when
the loop never updates its accumulator the best similarity is still the
sentinel `-1`, which is below the `0.85` threshold. -/
def detect_speaker {E : Type} (sim : E → E → ℚ) (st : SpeakerState E) :
    Option E → Option String × SpeakerState E
  | none => (some st.current_speaker, st)
  | some emb =>
    if st.speaker_embeddings.isEmpty then
      (some "A", ⟨[("A", [emb])], "A"⟩)
    else
      let best := best_match_loop sim emb st.speaker_embeddings (none, -1)
      if best.2 ≥ SIMILARITY_THRESHOLD then
        match best.1 with
        | some best_speaker =>
            let regs :=
              if (lookupRefs best_speaker st.speaker_embeddings).length
                  < MAX_REFERENCE_SAMPLES then
                appendRef best_speaker emb st.speaker_embeddings
              else
                st.speaker_embeddings
            (some best_speaker, ⟨regs, best_speaker⟩)
        | none => (none, st)
      else
        let new_speaker := newSpeakerLabel st.speaker_embeddings.length
        if st.speaker_embeddings.length < MAX_SPEAKERS then
          (some new_speaker,
            ⟨dictInsert new_speaker [emb] st.speaker_embeddings, new_speaker⟩)
        else
          (best.1, st)

/-- `reset_speakers` (src/app.py lines 171-175): reassign the globals to
`{}` and `"A"`, discarding the previous state. -/
def reset_speakers {E : Type} (_st : SpeakerState E) : SpeakerState E :=
  ⟨[], "A"⟩

/-- One externally triggerable operation on the attributor state. -/
inductive SpeakerOp (E : Type) where
  | attrib (e : Option E)
  | reset
  deriving DecidableEq

/-- Apply one operation to the state. -/
def applyOp {E : Type} (sim : E → E → ℚ) (st : SpeakerState E) :
    SpeakerOp E → SpeakerState E
  | .attrib e => (detect_speaker sim st e).2
  | .reset => reset_speakers st

/-- Run a sequence of operations from the initial state; its results are
exactly the reachable attributor states. -/
def runOps {E : Type} (sim : E → E → ℚ) (ops : List (SpeakerOp E)) :
    SpeakerState E :=
  ops.foldl (applyOp sim) (initState E)

/-- If every remaining identity scores no higher than the accumulated best,
the loop never updates its accumulator. -/
theorem best_match_loop_no_update {E : Type} (sim : E → E → ℚ) (emb : E) :
    ∀ (l : List (String × List E)) (bs : Option String) (bv : ℚ),
    (∀ p ∈ l, avg_similarity sim emb p.2 ≤ bv) →
    best_match_loop sim emb l (bs, bv) = (bs, bv) := by
  intro l
  induction l with
  | nil => intro bs bv _; rfl
  | cons p t ih =>
      intro bs bv h
      have hp : avg_similarity sim emb p.2 ≤ bv := h p (List.mem_cons_self p t)
      simp only [best_match_loop]
      rw [if_neg (not_lt.mpr hp)]
      exact ih bs bv fun q hq => h q (List.mem_cons_of_mem p hq)

/-- The loop selects the first identity attaining the maximal mean score,
provided that score beats the starting accumulator value. -/
theorem best_match_loop_first_argmax {E : Type} (sim : E → E → ℚ) (emb : E) :
    ∀ (l : List (String × List E)) (i : ℕ) (hi : i < l.length)
      (bs : Option String) (bv : ℚ),
    (∀ j (hj : j < l.length),
        avg_similarity sim emb (l.get ⟨j, hj⟩).2
          ≤ avg_similarity sim emb (l.get ⟨i, hi⟩).2) →
    (∀ j (hj : j < l.length), j < i →
        avg_similarity sim emb (l.get ⟨j, hj⟩).2
          < avg_similarity sim emb (l.get ⟨i, hi⟩).2) →
    bv < avg_similarity sim emb (l.get ⟨i, hi⟩).2 →
    best_match_loop sim emb l (bs, bv)
      = (some (l.get ⟨i, hi⟩).1, avg_similarity sim emb (l.get ⟨i, hi⟩).2) := by
  intro l
  induction l with
  | nil => intro i hi; exact absurd hi (Nat.not_lt_zero i)
  | cons p t ih =>
      intro i hi bs bv hmax hfirst hbv
      cases i with
      | zero =>
          simp only [best_match_loop]
          rw [if_pos (show avg_similarity sim emb p.2 > bv from hbv)]
          refine best_match_loop_no_update sim emb t _ _ fun q hq => ?_
          obtain ⟨⟨j, hj⟩, rfl⟩ := List.mem_iff_get.mp hq
          exact hmax (j + 1) (Nat.succ_lt_succ hj)
      | succ k =>
          have hk : k < t.length := Nat.lt_of_succ_lt_succ hi
          have h0 : avg_similarity sim emb p.2
              < avg_similarity sim emb (t.get ⟨k, hk⟩).2 :=
            hfirst 0 (Nat.zero_lt_succ t.length) (Nat.zero_lt_succ k)
          have hmax' : ∀ j (hj : j < t.length),
              avg_similarity sim emb (t.get ⟨j, hj⟩).2
                ≤ avg_similarity sim emb (t.get ⟨k, hk⟩).2 :=
            fun j hj => hmax (j + 1) (Nat.succ_lt_succ hj)
          have hfirst' : ∀ j (hj : j < t.length), j < k →
              avg_similarity sim emb (t.get ⟨j, hj⟩).2
                < avg_similarity sim emb (t.get ⟨k, hk⟩).2 :=
            fun j hj hjk => hfirst (j + 1) (Nat.succ_lt_succ hj) (Nat.succ_lt_succ hjk)
          simp only [best_match_loop]
          by_cases hup : avg_similarity sim emb p.2 > bv
          · rw [if_pos hup]
            exact ih k hk (some p.1) _ hmax' hfirst' h0
          · rw [if_neg hup]
            exact ih k hk bs bv hmax' hfirst' hbv

/-- The loop result is either the starting accumulator or the label and
mean score of some identity in the scanned registry. -/
theorem best_match_loop_result_cases {E : Type} (sim : E → E → ℚ) (emb : E) :
    ∀ (l : List (String × List E)) (bs : Option String) (bv : ℚ),
    best_match_loop sim emb l (bs, bv) = (bs, bv) ∨
    ∃ p ∈ l, best_match_loop sim emb l (bs, bv)
        = (some p.1, avg_similarity sim emb p.2) := by
  intro l
  induction l with
  | nil => intro bs bv; exact Or.inl rfl
  | cons p t ih =>
      intro bs bv
      simp only [best_match_loop]
      by_cases hup : avg_similarity sim emb p.2 > bv
      · rw [if_pos hup]
        rcases ih (some p.1) (avg_similarity sim emb p.2) with h | ⟨q, hq, h⟩
        · exact Or.inr ⟨p, List.mem_cons_self p t, h⟩
        · exact Or.inr ⟨q, List.mem_cons_of_mem p hq, h⟩
      · rw [if_neg hup]
        rcases ih bs bv with h | ⟨q, hq, h⟩
        · exact Or.inl h
        · exact Or.inr ⟨q, List.mem_cons_of_mem p hq, h⟩

/-- If the start value and every identity's mean score are below a bound,
so is the loop's resulting best score. -/
theorem best_match_loop_snd_lt {E : Type} (sim : E → E → ℚ) (emb : E)
    (l : List (String × List E)) (bs : Option String) (bv t : ℚ)
    (hbv : bv < t) (h : ∀ p ∈ l, avg_similarity sim emb p.2 < t) :
    (best_match_loop sim emb l (bs, bv)).2 < t := by
  rcases best_match_loop_result_cases sim emb l bs bv with hc | ⟨q, hq, hc⟩
  · rw [hc]; exact hbv
  · rw [hc]; exact h q hq

/-- Under distinct keys, Python dict lookup on a present key returns that
entry's value. -/
theorem lookupRefs_eq_of_mem {E : Type} :
    ∀ (l : List (String × List E)) (k : String) (v : List E),
    (l.map Prod.fst).Nodup → (k, v) ∈ l → lookupRefs k l = v := by
  intro l
  induction l with
  | nil => intro k v _ hmem; exact absurd hmem (List.not_mem_nil _)
  | cons p t ih =>
      intro k v hnd hmem
      simp only [List.map_cons, List.nodup_cons] at hnd
      rcases hnd with ⟨hp, ht⟩
      rcases List.mem_cons.mp hmem with heq | hmem'
      · subst heq
        simp [lookupRefs]
      · have hk : p.1 ≠ k := by
          intro hpk
          have : k ∈ t.map Prod.fst := List.mem_map_of_mem Prod.fst hmem'
          exact hp (hpk ▸ this)
        rw [lookupRefs, if_neg hk]
        exact ih k v ht hmem'

/-- Dict assignment with a key absent from the registry appends the new
entry at the end. -/
theorem dictInsert_of_fresh {E : Type} :
    ∀ (l : List (String × List E)) (k : String) (v : List E),
    (∀ p ∈ l, p.1 ≠ k) → dictInsert k v l = l ++ [(k, v)] := by
  intro l
  induction l with
  | nil => intro k v _; rfl
  | cons p t ih =>
      intro k v h
      rw [dictInsert, if_neg (h p (List.mem_cons_self p t))]
      rw [ih k v fun q hq => h q (List.mem_cons_of_mem p hq)]
      rfl

/-- The threshold exceeds the loop's starting sentinel value `-1`. -/
theorem neg_one_lt_threshold : (-1 : ℚ) < SIMILARITY_THRESHOLD := by
  norm_num [SIMILARITY_THRESHOLD]

/-- Unfolding of `detect_speaker` in the above-threshold branch, in terms
of the best-match loop's result. -/
theorem detect_speaker_match_eq {E : Type} (sim : E → E → ℚ)
    (st : SpeakerState E) (emb : E) (bs : String) (bv : ℚ)
    (hne : ¬ st.speaker_embeddings.isEmpty = true)
    (hloop : best_match_loop sim emb st.speaker_embeddings (none, -1)
        = (some bs, bv))
    (hthr : bv ≥ SIMILARITY_THRESHOLD) :
    detect_speaker sim st (some emb)
      = (some bs,
          ⟨if (lookupRefs bs st.speaker_embeddings).length
                < MAX_REFERENCE_SAMPLES then
              appendRef bs emb st.speaker_embeddings
            else st.speaker_embeddings,
            bs⟩) := by
  simp only [detect_speaker]
  rw [if_neg hne, hloop]
  rw [if_pos (show ((some bs, bv) : Option String × ℚ).2 ≥ SIMILARITY_THRESHOLD
    from hthr)]

/-- C1: on a non-empty registry, when the identity scoring the highest
arithmetic-mean similarity (first-seen wins ties, i.e. every earlier
identity scores strictly lower and no identity scores higher) reaches the
threshold, `attribute` appends the embedding to that identity's reference
set exactly when the set is below the cap, sets the current speaker to that
identity, and returns its label. -/
theorem detect_speaker_match_above_threshold {E : Type} (sim : E → E → ℚ)
    (st : SpeakerState E) (emb : E) (i : ℕ)
    (hi : i < st.speaker_embeddings.length)
    (hkeys : (st.speaker_embeddings.map Prod.fst).Nodup)
    (hmax : ∀ j (hj : j < st.speaker_embeddings.length),
        avg_similarity sim emb (st.speaker_embeddings.get ⟨j, hj⟩).2
          ≤ avg_similarity sim emb (st.speaker_embeddings.get ⟨i, hi⟩).2)
    (hfirst : ∀ j (hj : j < st.speaker_embeddings.length), j < i →
        avg_similarity sim emb (st.speaker_embeddings.get ⟨j, hj⟩).2
          < avg_similarity sim emb (st.speaker_embeddings.get ⟨i, hi⟩).2)
    (hthr : SIMILARITY_THRESHOLD
        ≤ avg_similarity sim emb (st.speaker_embeddings.get ⟨i, hi⟩).2) :
    detect_speaker sim st (some emb)
      = (some (st.speaker_embeddings.get ⟨i, hi⟩).1,
          ⟨if (st.speaker_embeddings.get ⟨i, hi⟩).2.length
                < MAX_REFERENCE_SAMPLES then
              appendRef (st.speaker_embeddings.get ⟨i, hi⟩).1 emb
                st.speaker_embeddings
            else st.speaker_embeddings,
            (st.speaker_embeddings.get ⟨i, hi⟩).1⟩) := by
  have hne : ¬ st.speaker_embeddings.isEmpty = true := by
    cases h : st.speaker_embeddings with
    | nil => rw [h] at hi; exact absurd hi (Nat.not_lt_zero i)
    | cons p t => simp [List.isEmpty]
  have hloop := best_match_loop_first_argmax sim emb st.speaker_embeddings i hi
    none (-1) hmax hfirst
    (lt_of_lt_of_le neg_one_lt_threshold hthr)
  have hlook : lookupRefs (st.speaker_embeddings.get ⟨i, hi⟩).1
      st.speaker_embeddings = (st.speaker_embeddings.get ⟨i, hi⟩).2 := by
    refine lookupRefs_eq_of_mem st.speaker_embeddings _ _ hkeys ?_
    exact st.speaker_embeddings.get_mem i hi
  rw [detect_speaker_match_eq sim st emb _ _ hne hloop hthr, hlook]

/-- C2: on a non-empty registry strictly below the speaker cap, when every
identity's arithmetic-mean similarity is below the threshold, `attribute`
mints the next sequential label (the nth letter after "A" for registry size
n, here fresh in the registry), seeds its reference set with exactly this
embedding, appends it at the end of the registry, makes it the current
speaker, and returns it. -/
theorem detect_speaker_new_identity {E : Type} (sim : E → E → ℚ)
    (st : SpeakerState E) (emb : E)
    (hne : st.speaker_embeddings ≠ [])
    (hsize : st.speaker_embeddings.length < MAX_SPEAKERS)
    (hfresh : ∀ p ∈ st.speaker_embeddings,
        p.1 ≠ newSpeakerLabel st.speaker_embeddings.length)
    (hbelow : ∀ p ∈ st.speaker_embeddings,
        avg_similarity sim emb p.2 < SIMILARITY_THRESHOLD) :
    detect_speaker sim st (some emb)
      = (some (newSpeakerLabel st.speaker_embeddings.length),
          ⟨st.speaker_embeddings
              ++ [(newSpeakerLabel st.speaker_embeddings.length, [emb])],
            newSpeakerLabel st.speaker_embeddings.length⟩) := by
  have hne' : ¬ st.speaker_embeddings.isEmpty = true := by
    cases h : st.speaker_embeddings with
    | nil => exact absurd h hne
    | cons p t => simp [List.isEmpty]
  have hv : (best_match_loop sim emb st.speaker_embeddings (none, -1)).2
      < SIMILARITY_THRESHOLD :=
    best_match_loop_snd_lt sim emb st.speaker_embeddings none (-1)
      SIMILARITY_THRESHOLD neg_one_lt_threshold hbelow
  simp only [detect_speaker]
  rw [if_neg hne', if_neg (not_le.mpr hv), if_pos hsize,
    dictInsert_of_fresh st.speaker_embeddings _ _ hfresh]

/-- Constant similarity measure used by concrete witnesses. -/
def simOne : Unit → Unit → ℚ := fun _ _ => 1

/-- Constant below-threshold similarity measure used by concrete witnesses. -/
def simZero : Unit → Unit → ℚ := fun _ _ => 0

/-- A one-identity registry state used by concrete witnesses. -/
def st1 : SpeakerState Unit := ⟨[("A", [()])], "A"⟩

/-- Witness for C1: on the registry `{A: [e]}` with constant similarity 1,
the call matches "A", appends the embedding, and returns "A". -/
theorem detect_speaker_match_above_threshold_witness :
    detect_speaker simOne st1 (some ())
      = (some "A", ⟨[("A", [(), ()])], "A"⟩) :=
  (detect_speaker_match_above_threshold simOne st1 () 0 (by decide) (by decide)
    (by
      intro j hj
      obtain rfl : j = 0 := Nat.lt_one_iff.mp hj
      exact le_rfl)
    (by intro j hj hji; exact absurd hji (Nat.not_lt_zero j))
    (by norm_num [SIMILARITY_THRESHOLD, avg_similarity, simOne, st1])).trans
    (by decide)

/-- Witness for C2: on the registry `{A: [e]}` with constant similarity 0,
the call mints "B", seeds it with the embedding, and returns "B". -/
theorem detect_speaker_new_identity_witness :
    detect_speaker simZero st1 (some ())
      = (some "B", ⟨[("A", [()]), ("B", [()])], "B"⟩) :=
  (detect_speaker_new_identity simZero st1 () (by decide) (by decide)
    (by decide)
    (by
      intro p hp
      simp only [st1, List.mem_singleton] at hp
      subst hp
      norm_num [avg_similarity, simZero, SIMILARITY_THRESHOLD])).trans
    (by decide)

/-- Unfolding of `detect_speaker` in the cap-reached fallback branch
(src/app.py line 168): when every identity scores below the threshold and
the registry is at (or beyond) the speaker cap, the call returns the loop's
best label — which is `None` when the loop never updated — and leaves the
state entirely unchanged. -/
theorem detect_speaker_fallback_eq {E : Type} (sim : E → E → ℚ)
    (st : SpeakerState E) (emb : E)
    (hcap : MAX_SPEAKERS ≤ st.speaker_embeddings.length)
    (hbelow : ∀ p ∈ st.speaker_embeddings,
        avg_similarity sim emb p.2 < SIMILARITY_THRESHOLD) :
    detect_speaker sim st (some emb)
      = ((best_match_loop sim emb st.speaker_embeddings (none, -1)).1, st) := by
  have hne : ¬ st.speaker_embeddings.isEmpty = true := by
    cases h : st.speaker_embeddings with
    | nil => rw [h] at hcap; simp [MAX_SPEAKERS] at hcap
    | cons p t => simp [List.isEmpty]
  have hv : (best_match_loop sim emb st.speaker_embeddings (none, -1)).2
      < SIMILARITY_THRESHOLD :=
    best_match_loop_snd_lt sim emb st.speaker_embeddings none (-1)
      SIMILARITY_THRESHOLD neg_one_lt_threshold hbelow
  simp only [detect_speaker]
  rw [if_neg hne, if_neg (not_le.mpr hv), if_neg (not_lt.mpr hcap)]

/-- Constant similarity measure `-1`, the loop's sentinel value; realised
by true cosines on exactly antipodal embeddings. -/
def simNegOne : Unit → Unit → ℚ := fun _ _ => -1

/-- A registry at the speaker cap: ten identities with one reference each. -/
def capRegistry : List (String × List Unit) :=
  [("A", [()]), ("B", [()]), ("C", [()]), ("D", [()]), ("E", [()]),
   ("F", [()]), ("G", [()]), ("H", [()]), ("I", [()]), ("J", [()])]

/-- The cap registry with current speaker "A". -/
def st10 : SpeakerState Unit := ⟨capRegistry, "A"⟩

/-- The cap registry with current speaker "C". -/
def stC : SpeakerState Unit := ⟨capRegistry, "C"⟩

/-- Every identity of the cap registry has mean similarity 0 under the
constant-zero measure. -/
theorem capRegistry_avg_zero :
    ∀ j (hj : j < capRegistry.length),
      avg_similarity simZero () (capRegistry.get ⟨j, hj⟩).2 = 0 := by
  intro j hj
  have hj' : j < 10 := hj
  interval_cases j <;> norm_num [capRegistry, avg_similarity, simZero]

/-- C3 counterexample: on a registry holding exactly ten identities in
which every identity's mean similarity is the loop sentinel `-1` (below
the threshold), the call creates no identity but returns no label at all
(`None`), not the label of the best-scoring existing identity. -/
theorem detect_speaker_cap_counterexample :
    st10.speaker_embeddings.length = MAX_SPEAKERS ∧
    (∀ p ∈ st10.speaker_embeddings,
        avg_similarity simNegOne () p.2 < SIMILARITY_THRESHOLD) ∧
    detect_speaker simNegOne st10 (some ()) = (none, st10) ∧
    ∀ p ∈ st10.speaker_embeddings,
      (detect_speaker simNegOne st10 (some ())).1 ≠ some p.1 := by
  have hb : ∀ p ∈ st10.speaker_embeddings,
      avg_similarity simNegOne () p.2 = -1 := by
    intro p hp
    simp only [st10, capRegistry] at hp
    fin_cases hp <;> norm_num [avg_similarity, simNegOne]
  have hlt : ∀ p ∈ st10.speaker_embeddings,
      avg_similarity simNegOne () p.2 < SIMILARITY_THRESHOLD :=
    fun p hp => (hb p hp) ▸ neg_one_lt_threshold
  have hloop : best_match_loop simNegOne () st10.speaker_embeddings (none, -1)
      = (none, -1) :=
    best_match_loop_no_update simNegOne () st10.speaker_embeddings none (-1)
      fun p hp => le_of_eq (hb p hp)
  have hmain := detect_speaker_fallback_eq simNegOne st10 () (by decide) hlt
  rw [hloop] at hmain
  exact ⟨by decide, hlt, hmain, fun p _ => by rw [hmain]; simp⟩

/-- C3 amended: on a registry at the speaker cap where every identity's
mean similarity is below the threshold, no new identity is created and the
registry is left unchanged at ten identities; the call returns the label of
the best-scoring identity (first-seen wins ties) provided that best mean
score exceeds the loop sentinel `-1`; in the degenerate case in which every
identity's mean score is ≤ `-1` it instead returns no label. -/
theorem detect_speaker_cap_fallback {E : Type} (sim : E → E → ℚ)
    (st : SpeakerState E) (emb : E) (i : ℕ)
    (hi : i < st.speaker_embeddings.length)
    (hcap : MAX_SPEAKERS ≤ st.speaker_embeddings.length)
    (hmax : ∀ j (hj : j < st.speaker_embeddings.length),
        avg_similarity sim emb (st.speaker_embeddings.get ⟨j, hj⟩).2
          ≤ avg_similarity sim emb (st.speaker_embeddings.get ⟨i, hi⟩).2)
    (hfirst : ∀ j (hj : j < st.speaker_embeddings.length), j < i →
        avg_similarity sim emb (st.speaker_embeddings.get ⟨j, hj⟩).2
          < avg_similarity sim emb (st.speaker_embeddings.get ⟨i, hi⟩).2)
    (hbelow : avg_similarity sim emb (st.speaker_embeddings.get ⟨i, hi⟩).2
        < SIMILARITY_THRESHOLD)
    (hgt : (-1 : ℚ)
        < avg_similarity sim emb (st.speaker_embeddings.get ⟨i, hi⟩).2) :
    detect_speaker sim st (some emb)
      = (some (st.speaker_embeddings.get ⟨i, hi⟩).1, st) := by
  have hbelow' : ∀ p ∈ st.speaker_embeddings,
      avg_similarity sim emb p.2 < SIMILARITY_THRESHOLD := by
    intro p hp
    obtain ⟨⟨j, hj⟩, rfl⟩ := List.mem_iff_get.mp hp
    exact lt_of_le_of_lt (hmax j hj) hbelow
  have hloop := best_match_loop_first_argmax sim emb st.speaker_embeddings i hi
    none (-1) hmax hfirst hgt
  have hmain := detect_speaker_fallback_eq sim st emb hcap hbelow'
  rw [hloop] at hmain
  exact hmain

/-- Shared score fact for the cap-registry witnesses: index 0 is the first
maximiser of the constant-zero mean scores. -/
theorem capRegistry_argmax_zero :
    ∀ j (hj : j < capRegistry.length),
      avg_similarity simZero () (capRegistry.get ⟨j, hj⟩).2
        ≤ avg_similarity simZero () (capRegistry.get ⟨0, by decide⟩).2 := by
  intro j hj
  rw [capRegistry_avg_zero j hj, capRegistry_avg_zero 0 (by decide)]

/-- Witness for C3 (amended): the cap registry under the constant-zero
measure returns the first identity's label "A" and leaves the state
unchanged. -/
theorem detect_speaker_cap_fallback_witness :
    detect_speaker simZero st10 (some ()) = (some "A", st10) :=
  (detect_speaker_cap_fallback simZero st10 () 0 (by decide) (by decide)
    capRegistry_argmax_zero
    (by intro j hj hji; exact absurd hji (Nat.not_lt_zero j))
    (by
      show avg_similarity simZero () (capRegistry.get ⟨0, by decide⟩).2
        < SIMILARITY_THRESHOLD
      rw [capRegistry_avg_zero 0 (by decide)]
      norm_num [SIMILARITY_THRESHOLD])
    (by
      show (-1 : ℚ) < avg_similarity simZero () (capRegistry.get ⟨0, by decide⟩).2
      rw [capRegistry_avg_zero 0 (by decide)]
      norm_num)).trans (by decide)

/-- C10: when the registry is at the speaker cap and every identity scores
below the threshold, the fallback call leaves the whole state — registry
and current-speaker pointer — unchanged, so an immediately following
`attribute` call with no embedding returns the current speaker from before
the fallback call (which need not be the label the fallback returned). -/
theorem detect_speaker_fallback_keeps_current {E : Type} (sim : E → E → ℚ)
    (st : SpeakerState E) (emb : E)
    (hcap : MAX_SPEAKERS ≤ st.speaker_embeddings.length)
    (hbelow : ∀ p ∈ st.speaker_embeddings,
        avg_similarity sim emb p.2 < SIMILARITY_THRESHOLD) :
    (detect_speaker sim st (some emb)).2 = st ∧
    detect_speaker sim ((detect_speaker sim st (some emb)).2) none
      = (some st.current_speaker, st) := by
  have h := detect_speaker_fallback_eq sim st emb hcap hbelow
  refine ⟨by rw [h], ?_⟩
  rw [h]
  rfl

/-- Witness for C10: on the cap registry with current speaker "C" and the
constant-zero measure, the fallback call returns "A" but keeps the state,
and the immediately following no-embedding call returns "C". -/
theorem detect_speaker_fallback_keeps_current_witness :
    ((detect_speaker simZero stC (some ())).2 = stC ∧
      detect_speaker simZero ((detect_speaker simZero stC (some ())).2) none
        = (some "C", stC)) ∧
    (detect_speaker simZero stC (some ())).1 = some "A" ∧
    stC.current_speaker ≠ "A" := by
  have hbelow : ∀ p ∈ stC.speaker_embeddings,
      avg_similarity simZero () p.2 < SIMILARITY_THRESHOLD := by
    intro p hp
    obtain ⟨⟨j, hj⟩, rfl⟩ := List.mem_iff_get.mp hp
    show avg_similarity simZero () (capRegistry.get ⟨j, hj⟩).2
      < SIMILARITY_THRESHOLD
    rw [capRegistry_avg_zero j hj]
    norm_num [SIMILARITY_THRESHOLD]
  have hmain := detect_speaker_fallback_keeps_current simZero stC ()
    (by decide) hbelow
  have hloop := best_match_loop_first_argmax simZero () stC.speaker_embeddings
    0 (by decide) none (-1)
    capRegistry_argmax_zero
    (by intro j hj hji; exact absurd hji (Nat.not_lt_zero j))
    (by
      show (-1 : ℚ)
        < avg_similarity simZero () (capRegistry.get ⟨0, by decide⟩).2
      rw [capRegistry_avg_zero 0 (by decide)]
      norm_num)
  have hfst : detect_speaker simZero stC (some ()) = (some "A", stC) := by
    have h := detect_speaker_fallback_eq simZero stC () (by decide) hbelow
    rw [hloop] at h
    exact h.trans (by decide)
  exact ⟨hmain, by rw [hfst], by decide⟩

/-- C5: calling `attribute` with no embedding returns exactly the pre-call
current-speaker label and leaves the registry and the current-speaker
pointer unchanged. -/
theorem detect_speaker_none_frame {E : Type} (sim : E → E → ℚ)
    (st : SpeakerState E) :
    detect_speaker sim st none = (some st.current_speaker, st) := rfl

/-- C6: the first `attribute` call on an empty registry (whatever the
current-speaker pointer holds) returns label "A", leaves the registry with
exactly one identity whose reference set is exactly the supplied embedding,
and sets the current speaker to "A". -/
theorem detect_speaker_first_call {E : Type} (sim : E → E → ℚ) (c : String)
    (e : E) :
    detect_speaker sim ⟨[], c⟩ (some e) = (some "A", ⟨[("A", [e])], "A"⟩) := rfl

/-- C7: `reset` clears the registry to empty with current speaker "A", the
initial-state sentinel; consequently any `attribute` call after a reset
returns the same label and produces the same state as the same call on a
freshly constructed registry. -/
theorem reset_restarts_fresh {E : Type} (sim : E → E → ℚ)
    (st : SpeakerState E) (e : Option E) :
    reset_speakers st = initState E ∧
    detect_speaker sim (reset_speakers st) e = detect_speaker sim (initState E) e :=
  ⟨rfl, rfl⟩

/-- The sequential labels of the first `n` identities: "A", "B", …. -/
def canonicalKeys (n : ℕ) : List String :=
  (List.range n).map newSpeakerLabel

/-- The shape invariant the program maintains on the registry: the keys are
exactly the first `length` sequential labels (in order of first
appearance), the speaker cap holds, and every reference set is non-empty
and within the sample cap. -/
def GoodState {E : Type} (st : SpeakerState E) : Prop :=
  st.speaker_embeddings.map Prod.fst
      = canonicalKeys st.speaker_embeddings.length ∧
  st.speaker_embeddings.length ≤ MAX_SPEAKERS ∧
  ∀ p ∈ st.speaker_embeddings,
    p.2 ≠ [] ∧ p.2.length ≤ MAX_REFERENCE_SAMPLES

/-- Below the speaker cap, the next sequential label is not yet a key. -/
theorem newSpeakerLabel_not_mem :
    ∀ n, n < MAX_SPEAKERS → newSpeakerLabel n ∉ canonicalKeys n := by decide

/-- Within the speaker cap, the sequential labels are distinct. -/
theorem canonicalKeys_nodup :
    ∀ n, n ≤ MAX_SPEAKERS → (canonicalKeys n).Nodup := by decide

/-- Unfolding of the sequential key list at a successor. -/
theorem canonicalKeys_succ (n : ℕ) :
    canonicalKeys (n + 1) = canonicalKeys n ++ [newSpeakerLabel n] := by
  simp [canonicalKeys, List.range_succ]

/-- Appending a reference sample never changes the key sequence. -/
theorem appendRef_keys {E : Type} (k : String) (emb : E) :
    ∀ l : List (String × List E),
    (appendRef k emb l).map Prod.fst = l.map Prod.fst := by
  intro l
  induction l with
  | nil => rfl
  | cons p t ih =>
      rw [appendRef]
      by_cases hk : p.1 = k
      · rw [if_pos hk]; simp [List.map_cons]
      · rw [if_neg hk]; simp [List.map_cons, ih]

/-- Appending a reference sample never changes the registry size. -/
theorem appendRef_length {E : Type} (k : String) (emb : E)
    (l : List (String × List E)) :
    (appendRef k emb l).length = l.length := by
  have h := congrArg List.length (appendRef_keys k emb l)
  simpa using h

/-- Every entry after a reference append is an untouched old entry or the
old entry with the target key extended by the new sample. -/
theorem mem_appendRef {E : Type} (k : String) (emb : E) :
    ∀ (l : List (String × List E)) (q : String × List E),
    q ∈ appendRef k emb l →
    q ∈ l ∨ ∃ p ∈ l, p.1 = k ∧ q = (p.1, p.2 ++ [emb]) := by
  intro l
  induction l with
  | nil => intro q hq; exact absurd hq (List.not_mem_nil q)
  | cons p t ih =>
      intro q hq
      rw [appendRef] at hq
      by_cases hk : p.1 = k
      · rw [if_pos hk] at hq
        rcases List.mem_cons.mp hq with rfl | hq'
        · exact Or.inr ⟨p, List.mem_cons_self p t, hk, rfl⟩
        · exact Or.inl (List.mem_cons_of_mem p hq')
      · rw [if_neg hk] at hq
        rcases List.mem_cons.mp hq with rfl | hq'
        · exact Or.inl (List.mem_cons_self q t)
        · rcases ih q hq' with h1 | ⟨p', hp', h2, h3⟩
          · exact Or.inl (List.mem_cons_of_mem p h1)
          · exact Or.inr ⟨p', List.mem_cons_of_mem p hp', h2, h3⟩

/-- An entry with a different key passes through a reference append
untouched. -/
theorem mem_appendRef_of_ne {E : Type} (k : String) (emb : E) :
    ∀ (l : List (String × List E)) (p : String × List E),
    p ∈ l → p.1 ≠ k → p ∈ appendRef k emb l := by
  intro l
  induction l with
  | nil => intro p hp _; exact absurd hp (List.not_mem_nil p)
  | cons q t ih =>
      intro p hp hne
      rw [appendRef]
      by_cases hk : q.1 = k
      · rw [if_pos hk]
        rcases List.mem_cons.mp hp with rfl | hp'
        · exact absurd hk hne
        · exact List.mem_cons_of_mem _ hp'
      · rw [if_neg hk]
        rcases List.mem_cons.mp hp with rfl | hp'
        · exact List.mem_cons_self p (appendRef k emb t)
        · exact List.mem_cons_of_mem q (ih p hp' hne)

/-- In a good state below the speaker cap, the next sequential label is
fresh. -/
theorem good_fresh {E : Type} {st : SpeakerState E} (h : GoodState st)
    (hsz : st.speaker_embeddings.length < MAX_SPEAKERS) :
    ∀ p ∈ st.speaker_embeddings,
      p.1 ≠ newSpeakerLabel st.speaker_embeddings.length := by
  intro p hp hpk
  have hmem : p.1 ∈ st.speaker_embeddings.map Prod.fst :=
    List.mem_map_of_mem Prod.fst hp
  rw [h.1, hpk] at hmem
  exact newSpeakerLabel_not_mem _ hsz hmem

/-- The state created for the very first speaker is good. -/
theorem good_singleton {E : Type} (emb : E) :
    GoodState (⟨[("A", [emb])], "A"⟩ : SpeakerState E) := by
  refine ⟨rfl, by norm_num [MAX_SPEAKERS], ?_⟩
  intro p hp
  rcases List.mem_singleton.mp hp with rfl
  exact ⟨by simp, by norm_num [MAX_REFERENCE_SAMPLES]⟩

/-- The initial state is good. -/
theorem good_initState (E : Type) : GoodState (initState E) := by
  refine ⟨rfl, by simp [initState], ?_⟩
  intro p hp
  exact absurd hp (List.not_mem_nil p)

/-- Minting a new sequential identity below the speaker cap preserves
goodness. -/
theorem good_new_speaker {E : Type} (st : SpeakerState E) (emb : E)
    (h : GoodState st)
    (hsz : st.speaker_embeddings.length < MAX_SPEAKERS) :
    GoodState (⟨dictInsert (newSpeakerLabel st.speaker_embeddings.length)
        [emb] st.speaker_embeddings,
      newSpeakerLabel st.speaker_embeddings.length⟩ : SpeakerState E) := by
  obtain ⟨hkeys, hsz10, hrefs⟩ := h
  rw [dictInsert_of_fresh _ _ _ (good_fresh ⟨hkeys, hsz10, hrefs⟩ hsz)]
  refine ⟨?_, ?_, ?_⟩
  · show (st.speaker_embeddings
        ++ [(newSpeakerLabel st.speaker_embeddings.length, [emb])]).map Prod.fst
      = canonicalKeys (st.speaker_embeddings
        ++ [(newSpeakerLabel st.speaker_embeddings.length, [emb])]).length
    rw [List.map_append, List.length_append, hkeys]
    simp [canonicalKeys_succ]
  · show (st.speaker_embeddings ++ [_]).length ≤ MAX_SPEAKERS
    rw [List.length_append]
    simpa using hsz
  · intro q hq
    rcases List.mem_append.mp hq with hql | hq1
    · exact hrefs q hql
    · rcases List.mem_singleton.mp hq1 with rfl
      exact ⟨by simp, by norm_num [MAX_REFERENCE_SAMPLES]⟩

/-- Attributing a matched embedding (append below the sample cap, discard
at the cap) preserves goodness. -/
theorem good_append {E : Type} (st : SpeakerState E) (emb : E)
    (k : String) (h : GoodState st) :
    GoodState (⟨if (lookupRefs k st.speaker_embeddings).length
          < MAX_REFERENCE_SAMPLES then
        appendRef k emb st.speaker_embeddings
      else st.speaker_embeddings, k⟩ : SpeakerState E) := by
  obtain ⟨hkeys, hsz, hrefs⟩ := h
  have hnd : (st.speaker_embeddings.map Prod.fst).Nodup := by
    rw [hkeys]; exact canonicalKeys_nodup _ hsz
  by_cases hg : (lookupRefs k st.speaker_embeddings).length
      < MAX_REFERENCE_SAMPLES
  · rw [if_pos hg]
    refine ⟨?_, ?_, ?_⟩
    · show (appendRef k emb st.speaker_embeddings).map Prod.fst
        = canonicalKeys (appendRef k emb st.speaker_embeddings).length
      rw [appendRef_keys, appendRef_length, hkeys]
    · show (appendRef k emb st.speaker_embeddings).length ≤ MAX_SPEAKERS
      rw [appendRef_length]; exact hsz
    · intro q hq
      rcases mem_appendRef k emb st.speaker_embeddings q hq
        with hql | ⟨p', hp', hpk, rfl⟩
      · exact hrefs q hql
      · have hlook : lookupRefs k st.speaker_embeddings = p'.2 := by
          rw [← hpk]
          exact lookupRefs_eq_of_mem st.speaker_embeddings p'.1 p'.2 hnd hp'

        refine ⟨by simp, ?_⟩
        rw [hlook] at hg
        simpa using Nat.succ_le_of_lt hg
  · rw [if_neg hg]
    exact ⟨hkeys, hsz, hrefs⟩

/-- `detect_speaker` preserves the registry shape invariant. -/
theorem detect_speaker_preserves_good {E : Type} (sim : E → E → ℚ)
    (st : SpeakerState E) (e : Option E) (h : GoodState st) :
    GoodState (detect_speaker sim st e).2 := by
  cases e with
  | none => exact h
  | some emb =>
      simp only [detect_speaker]
      by_cases hemp : st.speaker_embeddings.isEmpty
      · rw [if_pos hemp]
        exact good_singleton emb
      · rw [if_neg hemp]
        rcases best_match_loop_result_cases sim emb st.speaker_embeddings
          none (-1) with hc | ⟨p, hp, hc⟩
        · rw [hc]
          rw [if_neg (by
            show ¬ ((none, (-1 : ℚ)) : Option String × ℚ).2 ≥ SIMILARITY_THRESHOLD
            exact not_le.mpr neg_one_lt_threshold)]
          by_cases hsz : st.speaker_embeddings.length < MAX_SPEAKERS
          · rw [if_pos hsz]
            exact good_new_speaker st emb h hsz
          · rw [if_neg hsz]
            exact h
        · rw [hc]
          by_cases hth : avg_similarity sim emb p.2 ≥ SIMILARITY_THRESHOLD
          · rw [if_pos (show ((some p.1, avg_similarity sim emb p.2)
                : Option String × ℚ).2 ≥ SIMILARITY_THRESHOLD from hth)]
            exact good_append st emb p.1 h
          · rw [if_neg (show ¬ ((some p.1, avg_similarity sim emb p.2)
                : Option String × ℚ).2 ≥ SIMILARITY_THRESHOLD from hth)]
            by_cases hsz : st.speaker_embeddings.length < MAX_SPEAKERS
            · rw [if_pos hsz]
              exact good_new_speaker st emb h hsz
            · rw [if_neg hsz]
              exact h

/-- Every reachable attributor state is good. -/
theorem runOps_good {E : Type} (sim : E → E → ℚ)
    (ops : List (SpeakerOp E)) : GoodState (runOps sim ops) := by
  suffices h : ∀ (l : List (SpeakerOp E)) (st : SpeakerState E),
      GoodState st → GoodState (l.foldl (applyOp sim) st) from
    h ops (initState E) (good_initState E)
  intro l
  induction l with
  | nil => intro st h; exact h
  | cons op t ih =>
      intro st h
      refine ih _ ?_
      cases op with
      | attrib e => exact detect_speaker_preserves_good sim st e h
      | reset => exact good_initState E

/-- In a good state, an identity whose reference set is full survives any
further attribution with its reference set intact: the new embedding is
discarded rather than replacing stored samples. -/
theorem detect_speaker_preserves_full {E : Type} (sim : E → E → ℚ)
    (st : SpeakerState E) (emb : E) (p : String × List E)
    (h : GoodState st) (hp : p ∈ st.speaker_embeddings)
    (hfull : p.2.length = MAX_REFERENCE_SAMPLES) :
    p ∈ (detect_speaker sim st (some emb)).2.speaker_embeddings := by
  obtain ⟨hkeys, hsz, hrefs⟩ := h
  have hnd : (st.speaker_embeddings.map Prod.fst).Nodup := by
    rw [hkeys]; exact canonicalKeys_nodup _ hsz
  simp only [detect_speaker]
  by_cases hemp : st.speaker_embeddings.isEmpty
  · rw [List.isEmpty_iff] at hemp
    rw [hemp] at hp
    exact absurd hp (List.not_mem_nil p)
  · rw [if_neg hemp]
    rcases best_match_loop_result_cases sim emb st.speaker_embeddings
      none (-1) with hc | ⟨q, hq, hc⟩
    · rw [hc]
      rw [if_neg (by
        show ¬ ((none, (-1 : ℚ)) : Option String × ℚ).2 ≥ SIMILARITY_THRESHOLD
        exact not_le.mpr neg_one_lt_threshold)]
      by_cases hszlt : st.speaker_embeddings.length < MAX_SPEAKERS
      · rw [if_pos hszlt]
        show p ∈ (dictInsert _ [emb] st.speaker_embeddings)
        rw [dictInsert_of_fresh _ _ _ (good_fresh ⟨hkeys, hsz, hrefs⟩ hszlt)]
        exact List.mem_append_left _ hp
      · rw [if_neg hszlt]
        exact hp
    · rw [hc]
      by_cases hth : avg_similarity sim emb q.2 ≥ SIMILARITY_THRESHOLD
      · rw [if_pos (show ((some q.1, avg_similarity sim emb q.2)
            : Option String × ℚ).2 ≥ SIMILARITY_THRESHOLD from hth)]
        show p ∈ (if (lookupRefs q.1 st.speaker_embeddings).length
            < MAX_REFERENCE_SAMPLES then
          appendRef q.1 emb st.speaker_embeddings else st.speaker_embeddings)
        by_cases hpq : p.1 = q.1
        · have hlook : lookupRefs q.1 st.speaker_embeddings = p.2 := by
            rw [← hpq]
            exact lookupRefs_eq_of_mem st.speaker_embeddings p.1 p.2 hnd hp
          rw [if_neg (by rw [hlook, hfull]; exact lt_irrefl _)]
          exact hp
        · by_cases hg : (lookupRefs q.1 st.speaker_embeddings).length
              < MAX_REFERENCE_SAMPLES
          · rw [if_pos hg]
            exact mem_appendRef_of_ne q.1 emb st.speaker_embeddings p hp hpq
          · rw [if_neg hg]
            exact hp
      · rw [if_neg (show ¬ ((some q.1, avg_similarity sim emb q.2)
            : Option String × ℚ).2 ≥ SIMILARITY_THRESHOLD from hth)]
        by_cases hszlt : st.speaker_embeddings.length < MAX_SPEAKERS
        · rw [if_pos hszlt]
          show p ∈ (dictInsert _ [emb] st.speaker_embeddings)
          rw [dictInsert_of_fresh _ _ _ (good_fresh ⟨hkeys, hsz, hrefs⟩ hszlt)]
          exact List.mem_append_left _ hp
        · rw [if_neg hszlt]
          exact hp

/-- C4: every state reachable by any sequence of attribute and reset calls
from the initial state holds at most `MAX_SPEAKERS` identities, each with
at most `MAX_REFERENCE_SAMPLES` reference embeddings; moreover an identity
whose reference set is full keeps exactly its reference set through any
further attribution — a confirmed-same-speaker embedding is discarded
rather than replacing stored samples. -/
theorem reachable_caps_and_discard {E : Type} (sim : E → E → ℚ)
    (ops : List (SpeakerOp E)) :
    (runOps sim ops).speaker_embeddings.length ≤ MAX_SPEAKERS ∧
    (∀ p ∈ (runOps sim ops).speaker_embeddings,
        p.2.length ≤ MAX_REFERENCE_SAMPLES) ∧
    ∀ (emb : E) (p : String × List E),
      p ∈ (runOps sim ops).speaker_embeddings →
      p.2.length = MAX_REFERENCE_SAMPLES →
      p ∈ (detect_speaker sim (runOps sim ops) (some emb)).2.speaker_embeddings := by
  have h := runOps_good sim ops
  exact ⟨h.2.1, fun p hp => (h.2.2 p hp).2,
    fun emb p hp hfull =>
      detect_speaker_preserves_full sim _ emb p h hp hfull⟩

/-- Under the constant-one measure, every non-empty reference list has mean
similarity exactly 1. -/
theorem avg_simOne_replicate (n : ℕ) (hn : 0 < n) :
    avg_similarity simOne () (List.replicate n ()) = 1 := by
  have hn' : (n : ℚ) ≠ 0 := Nat.cast_ne_zero.mpr hn.ne'
  simp [avg_similarity, simOne, List.map_replicate, List.sum_replicate,
    nsmul_eq_mul, mul_one, div_self hn']

/-- One attribution step on the single-identity registry below the sample
cap: the embedding matches "A" and is appended. -/
theorem step_A (n : ℕ) (hn : 0 < n) (hlt : n < MAX_REFERENCE_SAMPLES) :
    detect_speaker simOne
        (⟨[("A", List.replicate n ())], "A"⟩ : SpeakerState Unit) (some ())
      = (some "A", ⟨[("A", List.replicate (n + 1) ())], "A"⟩) := by
  have havg := avg_simOne_replicate n hn
  have hloop : best_match_loop simOne ()
      [("A", List.replicate n ())] (none, -1) = (some "A", 1) := by
    simp only [best_match_loop, havg]
    rw [if_pos (by norm_num : (1 : ℚ) > -1)]
  have h := detect_speaker_match_eq simOne
    (⟨[("A", List.replicate n ())], "A"⟩ : SpeakerState Unit) () "A" 1
    (by simp) hloop (by norm_num [SIMILARITY_THRESHOLD])
  rw [h]
  simp [lookupRefs, appendRef, hlt, ← List.replicate_succ']

/-- One attribution step on the single-identity registry at the sample cap:
the embedding matches "A" but is discarded. -/
theorem step_A_full :
    detect_speaker simOne
        (⟨[("A", List.replicate 10 ())], "A"⟩ : SpeakerState Unit) (some ())
      = (some "A", ⟨[("A", List.replicate 10 ())], "A"⟩) := by
  have havg := avg_simOne_replicate 10 (by norm_num)
  have hloop : best_match_loop simOne ()
      [("A", List.replicate 10 ())] (none, -1) = (some "A", 1) := by
    simp only [best_match_loop, havg]
    rw [if_pos (by norm_num : (1 : ℚ) > -1)]
  have h := detect_speaker_match_eq simOne
    (⟨[("A", List.replicate 10 ())], "A"⟩ : SpeakerState Unit) () "A" 1
    (by simp) hloop (by norm_num [SIMILARITY_THRESHOLD])
  rw [h]
  rw [if_neg (by simp [lookupRefs, MAX_REFERENCE_SAMPLES])]

/-- Repeated confirmed-same-speaker attributions extend the single
identity's reference list while it stays within the cap. -/
theorem iterate_A : ∀ (k n : ℕ), 0 < n → n + k ≤ 10 →
    (List.replicate k (SpeakerOp.attrib (some ()))).foldl (applyOp simOne)
        (⟨[("A", List.replicate n ())], "A"⟩ : SpeakerState Unit)
      = ⟨[("A", List.replicate (n + k) ())], "A"⟩ := by
  intro k
  induction k with
  | zero => intro n hn h; simp
  | succ m ih =>
      intro n hn h
      rw [List.replicate_succ, List.foldl_cons]
      have hst : applyOp simOne
          (⟨[("A", List.replicate n ())], "A"⟩ : SpeakerState Unit)
          (SpeakerOp.attrib (some ()))
          = ⟨[("A", List.replicate (n + 1) ())], "A"⟩ := by
        show (detect_speaker simOne _ (some ())).2 = _
        rw [step_A n hn (by
          show n < MAX_REFERENCE_SAMPLES
          have : (MAX_REFERENCE_SAMPLES : ℕ) = 10 := rfl
          omega)]
      rw [hst, ih (n + 1) (by omega) (by omega),
        show n + 1 + m = n + (m + 1) from by omega]

/-- Eleven consecutive attribute calls with the same embedding. -/
def ops11 : List (SpeakerOp Unit) :=
  List.replicate 11 (SpeakerOp.attrib (some ()))

/-- The state ops11 reaches: one identity with a full reference list (ten
samples, the eleventh confirmed embedding discarded). -/
theorem runOps_ops11 :
    runOps simOne ops11 = ⟨[("A", List.replicate 10 ())], "A"⟩ := by
  have hsplit : ops11 = SpeakerOp.attrib (some ()) ::
      (List.replicate 9 (SpeakerOp.attrib (some ()))
        ++ [SpeakerOp.attrib (some ())]) := by decide
  rw [runOps, hsplit, List.foldl_cons, List.foldl_append]
  have h0 : applyOp simOne (initState Unit) (SpeakerOp.attrib (some ()))
      = ⟨[("A", List.replicate 1 ())], "A"⟩ := rfl
  rw [h0, iterate_A 9 1 (by omega) (by omega)]
  show List.foldl (applyOp simOne) _ [SpeakerOp.attrib (some ())] = _
  rw [List.foldl_cons, List.foldl_nil]
  show (detect_speaker simOne _ (some ())).2 = _
  rw [show (1 + 9 : ℕ) = 10 from rfl, step_A_full]

/-- Witness for C4: after eleven identical confirmed attributions the
reachable registry holds one identity with exactly ten samples, within both
caps, and a further attribution leaves that full identity's reference set
intact. -/
theorem reachable_caps_and_discard_witness :
    (runOps simOne ops11).speaker_embeddings.length ≤ MAX_SPEAKERS ∧
    ("A", List.replicate 10 ())
      ∈ (detect_speaker simOne (runOps simOne ops11)
          (some ())).2.speaker_embeddings := by
  have h := reachable_caps_and_discard simOne ops11
  refine ⟨h.1, h.2.2 () ("A", List.replicate 10 ()) ?_ ?_⟩
  · rw [runOps_ops11]
    exact List.mem_singleton.mpr rfl
  · rfl

/-- External per-chunk collaborator outcomes for one call of the chunk
transcription pipeline (src/app.py lines 69-122, 178-225).  The decoder,
the Resemblyzer preprocessing and embedding model, and the Whisper
speech-to-text model are external services with fixed contracts (spec §1,
§6); we record the outcome each produces for the chunk at hand.
`decoded = none` means the `decode_audio` call raised (caught at src/app.py
line 79); `embed_utterance w = none` means the embedding call raised
(caught at line 118); `whisper = none` means the Whisper `transcribe` call
raised (caught at line 223).  For an undecodable chunk both `decoded` and
`whisper` are `none`: both components decode the same temporary file with
the same ffmpeg-based decoder. -/
structure AudioEnv (W E : Type) where
  decoded : Option W
  wavLen : W → ℕ
  preprocess_wav : W → W
  embed_utterance : W → Option E
  whisper : Option (List String × String)

/-- `get_voice_embedding` (src/app.py lines 84-122): `None` when the
embedding model is absent, the chunk did not decode, the waveform is
shorter than 1600 samples before or after preprocessing, or the embedding
call itself failed. -/
def get_voice_embedding {W E : Type} (voice_encoder : Bool)
    (env : AudioEnv W E) : Option E :=
  if voice_encoder = false then none
  else
    match env.decoded with
    | none => none
    | some wav =>
      if env.wavLen wav < 1600 then none
      else
        let wav2 := env.preprocess_wav wav
        if env.wavLen wav2 < 1600 then none
        else env.embed_utterance wav2

/-- The successful payload of `transcribe_audio` (src/app.py lines
213-218). -/
structure TranscriptResult where
  text : String
  speaker : Option String
  language : String
  total_speakers : ℕ
  deriving DecidableEq, Repr

/-- `transcribe_audio` (src/app.py lines 178-225) as a state transformer:
the error branches return `Except.error` (the source returns
`{"error": ...}`), and the attributor state is threaded through because
`detect_speaker` mutates the globals before the Whisper call runs. -/
def transcribe_audio {W E : Type} (is_ready voice_encoder : Bool)
    (sim : E → E → ℚ) (env : AudioEnv W E) (st : SpeakerState E) :
    Except Unit TranscriptResult × SpeakerState E :=
  if is_ready = false then (Except.error (), st)
  else
    let sp : Option String × SpeakerState E :=
      if voice_encoder then
        detect_speaker sim st (get_voice_embedding voice_encoder env)
      else (none, st)
    match env.whisper with
    | none => (Except.error (), sp.2)
    | some (segs, lang) =>
        (Except.ok
          ⟨String.intercalate " " (segs.map String.trim), sp.1, lang,
            sp.2.speaker_embeddings.length⟩,
          sp.2)

/-- C8: for a chunk whose audio cannot be decoded — the decoder produces no
waveform and the speech-to-text engine's decode of the same blob also
fails — the ready pipeline returns an error result, no attribution takes
place, and the attributor state (hence the registry size) is exactly what
it was before the call. -/
theorem transcribe_audio_decode_failure {W E : Type} (voice_encoder : Bool)
    (sim : E → E → ℚ) (env : AudioEnv W E) (st : SpeakerState E)
    (hdec : env.decoded = none) (hwhisper : env.whisper = none) :
    transcribe_audio true voice_encoder sim env st
      = (Except.error (), st) := by
  cases voice_encoder with
  | false =>
      simp only [transcribe_audio, hwhisper]
      rw [if_neg (by simp)]
      rfl
  | true =>
      simp only [transcribe_audio, get_voice_embedding, hdec, hwhisper]
      rw [if_neg (by simp)]
      rfl

/-- Environment of an undecodable chunk, used by the C8 witness. -/
def envFail : AudioEnv Unit Unit :=
  ⟨none, fun _ => 0, id, fun _ => none, none⟩

/-- Witness for C8: a concrete undecodable chunk on the one-identity state
yields an error result and the unchanged state. -/
theorem transcribe_audio_decode_failure_witness :
    transcribe_audio true true simZero envFail st1
      = (Except.error (), st1) :=
  transcribe_audio_decode_failure true simZero envFail st1 rfl rfl

/-- Environment of a chunk that decodes and transcribes successfully, used
by the C9 theorems. -/
def envOk : AudioEnv Unit Unit :=
  ⟨some (), fun _ => 2000, id, fun _ => some (), some (["hola"], "es")⟩

/-- C9 counterexample: with the embedding model absent at startup
(`voice_encoder = None`, so `if voice_encoder:` at src/app.py line 197 is
false) and a chunk that decodes and transcribes fine, the pipeline still
transcribes but the returned result carries no speaker label at all
(`speaker = None`) — not a static label echoing the current speaker "A". -/
theorem transcribe_audio_no_encoder_counterexample :
    transcribe_audio true false simZero envOk st1
        = (Except.ok
            ⟨String.intercalate " " (["hola"].map String.trim), none, "es", 1⟩,
          st1) ∧
    st1.current_speaker = "A" := by
  constructor
  · rfl
  · rfl

/-- C9 amended: when the embedding model is absent (failed to load at
startup), every successfully processed chunk is still transcribed and the
attributor state is untouched, but the returned result carries no speaker
label (`speaker = None`) rather than echoing the current speaker; only the
transient per-chunk embedding failure with the model present echoes the
current speaker. -/
theorem transcribe_audio_no_encoder {W E : Type} (sim : E → E → ℚ)
    (env : AudioEnv W E) (st : SpeakerState E)
    (segs : List String) (lang : String)
    (hwhisper : env.whisper = some (segs, lang)) :
    transcribe_audio true false sim env st
      = (Except.ok
          ⟨String.intercalate " " (segs.map String.trim), none, lang,
            st.speaker_embeddings.length⟩,
          st) := by
  simp only [transcribe_audio, hwhisper]
  rw [if_neg (by simp)]
  rfl

/-- Witness for C9 (amended): the concrete successful chunk without an
embedding model is transcribed and carries no speaker label. -/
theorem transcribe_audio_no_encoder_witness :
    transcribe_audio true false simOne envOk st1
      = (Except.ok
          ⟨String.intercalate " " (["hola"].map String.trim), none, "es", 1⟩,
        st1) :=
  transcribe_audio_no_encoder simOne envOk st1 ["hola"] "es" rfl

end Transcriber
